import Mathlib

/-!
Verification development for the zinio downloader core (src/main.go).

The effectful Go code is embedded shallowly: every external collaborator
(network transport, metadata service, pdf library callbacks, filesystem
operations) is passed in as an explicit function argument or oracle
structure, and the functions of src/main.go are translated into pure Lean
functions over those oracles.  Stateful filesystem behaviour is modelled
by explicit state passing of an `FS` value, and the observable actions of
the orchestrator are recorded in an event trace.
-/

deriving instance DecidableEq for Except

/-- Raw byte content of one fetched page, as a list of byte values. -/
abbrev Bytes := List Nat

/-- Model of pkg/errors.Wrapf as used throughout src/main.go: wrapping a
nil error yields nil, and wrapping a non-nil error produces the message
followed by a colon and the cause. -/
def wrapf (err : Option String) (msg : String) : Option String :=
  err.map (fun e => msg ++ ": " ++ e)

/-- An HTTP response as observed by downloadPage: its status code and the
outcome of reading the response body to the end. -/
structure HttpResponse where
  statusCode : Nat
  body : Except String Bytes
deriving DecidableEq

/-- The cancellation state of the context.Context passed to one request:
whether it is cancelled or past its deadline at the time of the call. -/
structure Ctx where
  cancelled : Bool

/-- Model of ctxhttp.Get: the request fails when the context is cancelled
or past its deadline, and otherwise defers to the network collaborator. -/
def ctxhttpGet (ctx : Ctx) (net : String → Except String HttpResponse)
    (url : String) : Except String HttpResponse :=
  if ctx.cancelled then Except.error "context canceled" else net url

/-- Embedding of downloadPage (src/main.go lines 39-58): perform the GET,
then read the whole body with ioutil.ReadAll.  The source never inspects
resp.StatusCode, so neither does the model. -/
def downloadPage (ctx : Ctx) (net : String → Except String HttpResponse)
    (url : String) : Except String Bytes :=
  match ctxhttpGet ctx net url with
  | Except.error e => Except.error e
  | Except.ok resp =>
    match resp.body with
    | Except.error e => Except.error e
    | Except.ok b => Except.ok b

/-- The issue metadata consumed by the core, per src/API_DOCUMENTATION.md:
the total page count, the decrypted per-issue password, and the page-URL
derivation method GetURL.  GetURL's implementation lives outside
src/main.go, so it is modelled as an arbitrary collaborator field. -/
structure Issue where
  PageCount : Nat
  Password : String
  GetURL : Nat → Except String String

/-- The fetch loop of downloadAllPages (src/main.go lines 63-77),
instrumented with the list of page indices for which a page fetch
(downloadPage) was actually invoked.  `i` is the loop counter and `n` the
number of iterations remaining, so the loop runs while i < PageCount. -/
def downloadLoop (ctx : Ctx) (net : String → Except String HttpResponse)
    (issue : Issue) :
    Nat → Nat → List Bytes → List Nat → Except String (List Bytes) × List Nat
  | _, 0, pages, atts => (Except.ok pages, atts)
  | i, Nat.succ n, pages, atts =>
    match issue.GetURL i with
    | Except.error e => (Except.error e, atts)
    | Except.ok url =>
      match downloadPage ctx net url with
      | Except.error e =>
        (Except.error ("failed to download page " ++ toString i ++ ": " ++ e),
         atts ++ [i])
      | Except.ok b => downloadLoop ctx net issue (i + 1) n (pages ++ [b]) (atts ++ [i])

/-- Embedding of downloadAllPages (src/main.go lines 60-84): fetch pages
0 .. PageCount-1 in order, returning early on the first GetURL or fetch
failure; on success, if the list is non-empty, move its first element to
the end (Go: pages = append(pages[1:], pages[0])).  The second component
is the instrumented list of page indices whose fetch was attempted. -/
def downloadAllPages (ctx : Ctx) (net : String → Except String HttpResponse)
    (issue : Issue) : Except String (List Bytes) × List Nat :=
  match downloadLoop ctx net issue 0 issue.PageCount [] [] with
  | (Except.error e, atts) => (Except.error e, atts)
  | (Except.ok pages, atts) =>
    (Except.ok (if pages.length > 0 then pages.drop 1 ++ pages.take 1 else pages),
     atts)

/-- Spec-side sequencing policy of section 4.2, written from the spec's
words: a non-empty list is rotated left by one position, moving the
element at index 0 to the end; an empty list stays empty. -/
def rotateLeftOne {α : Type} : List α → List α
  | [] => []
  | x :: xs => xs ++ [x]

theorem rotateLeftOne_eq_dropTake {α : Type} (l : List α) :
    rotateLeftOne l = if l.length > 0 then l.drop 1 ++ l.take 1 else l := by
  cases l <;> simp [rotateLeftOne]

/-- A decrypted output sub-page: opaque content plus optional
interactive-annotation data (the Annots entry of a pdf page). -/
structure SubPage where
  content : Nat
  Annots : Option Nat
deriving DecidableEq

/-- The behaviour of one parsed encrypted page container as exposed by the
pdf reader collaborator: the outcome of Decrypt for each password (an
error, or the ok flag), the outcome of GetNumPages, and the outcome of
GetPageAsPdfPage for each 1-based sub-page index. -/
structure PdfDoc where
  decrypt : String → Except String Bool
  numPages : Except String Nat
  getPage : Nat → Except String SubPage

/-- The inner loop of unlockAndMerge (src/main.go lines 195-207): for
i = 0 .. numPages-1, fetch sub-page i+1, clear its Annots, and append it
to the writer (whose accumulated pages are the list w); the addPage
oracle decides whether w.AddPage fails. -/
def mergeSubPages (r : PdfDoc) (addPage : SubPage → Except String Unit) :
    Nat → Nat → List SubPage → Except String (List SubPage)
  | _, 0, w => Except.ok w
  | i, Nat.succ n, w =>
    match r.getPage (i + 1) with
    | Except.error e => Except.error e
    | Except.ok pg =>
      match addPage { pg with Annots := none } with
      | Except.error e => Except.error e
      | Except.ok _ => mergeSubPages r addPage (i + 1) n (w ++ [{ pg with Annots := none }])

/-- The outer loop of unlockAndMerge (src/main.go lines 172-208) over the
fetched page containers, threading the writer's accumulated sub-pages. -/
def unlockLoop (parse : Bytes → Except String PdfDoc)
    (addPage : SubPage → Except String Unit) (password : String) :
    List Bytes → List SubPage → Except String (List SubPage)
  | [], w => Except.ok w
  | p :: ps, w =>
    match parse p with
    | Except.error e => Except.error e
    | Except.ok r =>
      match r.decrypt password with
      | Except.error e => Except.error e
      | Except.ok ok =>
        if ok then
          match r.numPages with
          | Except.error e => Except.error e
          | Except.ok n =>
            match mergeSubPages r addPage 0 n w with
            | Except.error e => Except.error e
            | Except.ok w2 => unlockLoop parse addPage password ps w2
        else
          Except.error ("failed to decrypt pages using password " ++ password)

/-- Embedding of unlockAndMerge (src/main.go lines 169-211): starting from
a fresh writer, process every page container in input order.  When a
container rejects the password the source formats the plaintext password
into the error message (line 186). -/
def unlockAndMerge (parse : Bytes → Except String PdfDoc)
    (addPage : SubPage → Except String Unit) (pages : List Bytes)
    (password : String) : Except String (List SubPage) :=
  unlockLoop parse addPage password pages []

/-- Contents of a file in the modelled filesystem: either the completely
serialized document, or an incomplete (empty or partially written) file. -/
inductive FileData where
  | incomplete
  | complete (doc : List SubPage)
deriving DecidableEq

/-- The filesystem visible to save: a map from paths to file contents. -/
structure FS where
  files : String → Option FileData

def FS.set (fs : FS) (p : String) (d : FileData) : FS :=
  ⟨fun q => if q = p then some d else fs.files q⟩

def FS.remove (fs : FS) (p : String) : FS :=
  ⟨fun q => if q = p then none else fs.files q⟩

def FS.empty : FS := ⟨fun _ => none⟩

/-- Fault-injection outcomes for the four filesystem operations performed
by one call to save: os.Create, pdf.Write, file.Close and os.Rename. -/
structure SaveEnv where
  createErr : Option String
  writeErr : Option String
  closeErr : Option String
  renameErr : Option String

/-- Embedding of save (src/main.go lines 145-167).  It merges the pages,
creates the temporary sibling path (destination plus ".part"), writes the
document there (a failed write leaves the file incomplete), closes the
file, and — only when neither the write error err nor the close error
cerr is non-nil — renames the temporary file onto the destination.  All
error returns go through the wrapf model of errors.Wrapf, so a nil cause
wraps to nil exactly as in the source. -/
def save (parse : Bytes → Except String PdfDoc)
    (addPage : SubPage → Except String Unit) (env : SaveEnv)
    (pages : List Bytes) (password path : String) (fs : FS) :
    Option String × FS :=
  match unlockAndMerge parse addPage pages password with
  | Except.error e =>
    (some ("failed to unlock and merge pages for " ++ path ++ ": " ++ e), fs)
  | Except.ok doc =>
    match env.createErr with
    | some e => (some ("failed to create " ++ path ++ ": " ++ e), fs)
    | none =>
      let fs1 := fs.set (path ++ ".part")
        (match env.writeErr with
         | none => FileData.complete doc
         | some _ => FileData.incomplete)
      if env.writeErr.isSome || env.closeErr.isSome then
        (wrapf env.writeErr ("failed to save " ++ path), fs1)
      else
        match env.renameErr with
        | some e => (some ("failed to save " ++ path ++ ": " ++ e), fs1)
        | none =>
          (none, (fs1.remove (path ++ ".part")).set path (FileData.complete doc))

/-- ID and title of one issue as listed in a magazine. -/
structure IssueMetadata where
  ID : String
  Title : String

/-- A magazine with its list of issues. -/
structure Magazine where
  ID : String
  Title : String
  Issues : List IssueMetadata

/-- The externally observable actions of one run of downloadAllIssues:
metadata fetches, page fetches, calls to save, skip reports for already
downloaded issues, and logged per-issue errors. -/
inductive Event where
  | metaFetch (magID issueID : String)
  | pageFetch (idx : Nat)
  | saveCall (path : String)
  | skipIssue (magTitle issueTitle : String)
  | logErr (msg : String)
deriving DecidableEq

/-- The collaborator oracles of downloadAllIssues that are not part of
src/main.go: the sanitize string transform (out of scope per the spec,
assumed a pure collaborator), directory existence and creation, the
metadata service GetIssue, the pdf reader and writer callbacks, and the
per-path filesystem outcomes used by save. -/
structure Env where
  sanitize : String → String
  dirExists : String → Bool
  mkdirErr : String → Option String
  getIssue : String → String → Except String Issue
  parse : Bytes → Except String PdfDoc
  addPage : SubPage → Except String Unit
  saveEnv : String → SaveEnv

/-- Embedding of the per-issue closure of downloadAllIssues
(src/main.go lines 111-134): fetch the issue metadata, download all
pages (wrapping a failure with the magazine and issue titles), then call
save; the first component is the error the closure returns. -/
def processIssue (env : Env) (ctx : Ctx)
    (net : String → Except String HttpResponse) (magID magTitle : String)
    (md : IssueMetadata) (path : String) (fs : FS) :
    Option String × FS × List Event :=
  match env.getIssue magID md.ID with
  | Except.error e => (some e, fs, [Event.metaFetch magID md.ID])
  | Except.ok issue =>
    let r := downloadAllPages ctx net issue
    let evs := Event.metaFetch magID md.ID :: r.2.map Event.pageFetch
    match r.1 with
    | Except.error e =>
      (some ("failed to download " ++ magTitle ++ " " ++ md.Title ++ ": " ++ e),
       fs, evs)
    | Except.ok pages =>
      let s := save env.parse env.addPage (env.saveEnv path) pages issue.Password path fs
      (s.1, s.2, evs ++ [Event.saveCall path])

/-- Embedding of the body of the inner issue loop of downloadAllIssues
(src/main.go lines 97-139): build the destination path, skip the issue
when a file already exists there (os.Stat succeeds), and otherwise run
the closure, logging its error if it returns one. -/
def runIssue (env : Env) (ctx : Ctx)
    (net : String → Except String HttpResponse) (dir magID magTitle : String)
    (md : IssueMetadata) (fs : FS) : FS × List Event :=
  let path := dir ++ "/" ++ env.sanitize md.Title ++ ".pdf"
  if (fs.files path).isSome then
    (fs, [Event.skipIssue magTitle md.Title])
  else
    match processIssue env ctx net magID magTitle md path fs with
    | (some e, fs1, evs) => (fs1, evs ++ [Event.logErr e])
    | (none, fs1, evs) => (fs1, evs)

/-- The inner loop of downloadAllIssues over one magazine's issues,
threading the filesystem state and concatenating the event traces. -/
def runIssues (env : Env) (ctx : Ctx)
    (net : String → Except String HttpResponse) (dir magID magTitle : String)
    (fs : FS) : List IssueMetadata → FS × List Event
  | [] => (fs, [])
  | md :: rest =>
    let s1 := runIssue env ctx net dir magID magTitle md fs
    let s2 := runIssues env ctx net dir magID magTitle s1.1 rest
    (s2.1, s1.2 ++ s2.2)

/-- The body of the outer magazine loop of downloadAllIssues
(src/main.go lines 87-140): sanitize the magazine title into a directory
name, create the directory when missing (skipping the whole magazine and
logging when mkdir fails), then process every issue. -/
def runMagazine (env : Env) (ctx : Ctx)
    (net : String → Except String HttpResponse) (fs : FS) (mag : Magazine) :
    FS × List Event :=
  let dir := env.sanitize mag.Title
  if env.dirExists dir then
    runIssues env ctx net dir mag.ID mag.Title fs mag.Issues
  else
    match env.mkdirErr dir with
    | some e =>
      (fs, [Event.logErr ("failed to create directory " ++ mag.Title ++ ": " ++ e)])
    | none => runIssues env ctx net dir mag.ID mag.Title fs mag.Issues

/-- Embedding of downloadAllIssues (src/main.go lines 86-143): process
every magazine in order; per-issue failures are logged into the trace and
never abort the run, and the Go function itself always returns nil. -/
def downloadAllIssues (env : Env) (ctx : Ctx)
    (net : String → Except String HttpResponse) (fs : FS) :
    List Magazine → FS × List Event
  | [] => (fs, [])
  | mag :: rest =>
    let s1 := runMagazine env ctx net fs mag
    let s2 := downloadAllIssues env ctx net s1.1 rest
    (s2.1, s1.2 ++ s2.2)

theorem path_ne_temp (p : String) : p ≠ p ++ ".part" := by
  intro h
  have h2 := congrArg String.length h
  simp [String.length_append] at h2
  exact absurd h2 (by decide)

theorem downloadLoop_ok (ctx : Ctx) (net : String → Except String HttpResponse)
    (issue : Issue) (u : Nat → String) (b : Nat → Bytes) :
    ∀ (n i : Nat) (pages : List Bytes) (atts : List Nat),
    (∀ j, i ≤ j → j < i + n →
        issue.GetURL j = Except.ok (u j) ∧
        downloadPage ctx net (u j) = Except.ok (b j)) →
    downloadLoop ctx net issue i n pages atts =
      (Except.ok (pages ++ (List.range' i n).map b), atts ++ List.range' i n) := by
  intro n
  induction n with
  | zero => intro i pages atts h; simp [downloadLoop]
  | succ n ih =>
    intro i pages atts h
    have hi := h i (Nat.le_refl i) (by omega)
    have hrec := ih (i + 1) (pages ++ [b i]) (atts ++ [i])
      (fun j h1 h2 => h j (by omega) (by omega))
    simp only [downloadLoop, hi.1, hi.2, hrec, List.range'_succ]
    simp [List.append_assoc]

theorem downloadLoop_atts (ctx : Ctx) (net : String → Except String HttpResponse)
    (issue : Issue) :
    ∀ (n i : Nat) (pages : List Bytes) (atts : List Nat),
    ∃ k, k ≤ n ∧
      (downloadLoop ctx net issue i n pages atts).2 = atts ++ List.range' i k ∧
      (∀ r, (downloadLoop ctx net issue i n pages atts).1 = Except.ok r → k = n) := by
  intro n
  induction n with
  | zero =>
    intro i pages atts
    exact ⟨0, Nat.le_refl 0, by simp [downloadLoop], fun r _ => rfl⟩
  | succ n ih =>
    intro i pages atts
    cases hg : issue.GetURL i with
    | error e =>
      refine ⟨0, by omega, ?_, ?_⟩
      · simp [downloadLoop, hg]
      · intro r h
        simp [downloadLoop, hg] at h
    | ok url =>
      cases hf : downloadPage ctx net url with
      | error e =>
        refine ⟨1, by omega, ?_, ?_⟩
        · simp [downloadLoop, hg, hf, List.range']
        · intro r h
          simp [downloadLoop, hg, hf] at h
      | ok b =>
        obtain ⟨k, hk, hsnd, hok⟩ := ih (i + 1) (pages ++ [b]) (atts ++ [i])
        refine ⟨k + 1, by omega, ?_, ?_⟩
        · simp only [downloadLoop, hg, hf, hsnd, List.range'_succ]
          simp [List.append_assoc]
        · intro r h
          have hkn : k = n := hok r (by simpa [downloadLoop, hg, hf] using h)
          omega

theorem downloadLoop_err (ctx : Ctx) (net : String → Except String HttpResponse)
    (issue : Issue) (u : Nat → String) (b : Nat → Bytes) (e0 : String) :
    ∀ (m n i : Nat) (pages : List Bytes) (atts : List Nat), m < n →
    (∀ j, i ≤ j → j < i + m →
        issue.GetURL j = Except.ok (u j) ∧
        downloadPage ctx net (u j) = Except.ok (b j)) →
    issue.GetURL (i + m) = Except.ok (u (i + m)) →
    downloadPage ctx net (u (i + m)) = Except.error e0 →
    downloadLoop ctx net issue i n pages atts =
      (Except.error ("failed to download page " ++ toString (i + m) ++ ": " ++ e0),
       atts ++ List.range' i (m + 1)) := by
  intro m
  induction m with
  | zero =>
    intro n i pages atts hmn h hgu hf
    cases n with
    | zero => exact absurd hmn (by omega)
    | succ n =>
      simp only [Nat.add_zero] at hgu hf
      simp [downloadLoop, hgu, hf, List.range']
  | succ m ih =>
    intro n i pages atts hmn h hgu hf
    cases n with
    | zero => exact absurd hmn (by omega)
    | succ n =>
      have hi := h i (Nat.le_refl i) (by omega)
      have e1 : i + (m + 1) = i + 1 + m := by omega
      rw [e1] at hgu hf ⊢
      have hrec := ih n (i + 1) (pages ++ [b i]) (atts ++ [i]) (by omega)
        (fun j h1 h2 => h j (by omega) (by omega)) hgu hf
      simp only [downloadLoop, hi.1, hi.2, hrec, List.range'_succ]
      simp [List.append_assoc]

theorem downloadAllPages_snd (ctx : Ctx) (net : String → Except String HttpResponse)
    (issue : Issue) :
    (downloadAllPages ctx net issue).2 =
      (downloadLoop ctx net issue 0 issue.PageCount [] []).2 := by
  simp only [downloadAllPages]
  cases hres : downloadLoop ctx net issue 0 issue.PageCount [] [] with
  | mk fst snd => cases fst <;> simp

theorem downloadAllPages_err (ctx : Ctx) (net : String → Except String HttpResponse)
    (issue : Issue) (e : String)
    (h : (downloadLoop ctx net issue 0 issue.PageCount [] []).1 = Except.error e) :
    (downloadAllPages ctx net issue).1 = Except.error e := by
  simp only [downloadAllPages]
  cases hres : downloadLoop ctx net issue 0 issue.PageCount [] [] with
  | mk fst snd =>
    rw [hres] at h
    cases fst with
    | error e2 => simp_all
    | ok pages => simp_all

theorem downloadAllPages_ok (ctx : Ctx) (net : String → Except String HttpResponse)
    (issue : Issue) (pages : List Bytes)
    (h : (downloadAllPages ctx net issue).1 = Except.ok pages) :
    ∃ raw, (downloadLoop ctx net issue 0 issue.PageCount [] []).1 = Except.ok raw := by
  simp only [downloadAllPages] at h
  cases hres : downloadLoop ctx net issue 0 issue.PageCount [] [] with
  | mk fst snd =>
    rw [hres] at h
    cases fst with
    | error e2 => simp_all
    | ok raw => exact ⟨raw, by simp⟩

theorem downloadAllPages_atts (ctx : Ctx) (net : String → Except String HttpResponse)
    (issue : Issue) :
    ∃ k, k ≤ issue.PageCount ∧
      (downloadAllPages ctx net issue).2 = List.range' 0 k ∧
      (∀ pages, (downloadAllPages ctx net issue).1 = Except.ok pages →
        k = issue.PageCount) := by
  obtain ⟨k, hk, hsnd, hok⟩ :=
    downloadLoop_atts ctx net issue issue.PageCount 0 [] []
  refine ⟨k, hk, ?_, ?_⟩
  · rw [downloadAllPages_snd, hsnd]
    simp
  · intro pages hp
    obtain ⟨raw, hraw⟩ := downloadAllPages_ok ctx net issue pages hp
    exact hok raw hraw

/-- C1: for every issue all of whose page-URL derivations and page fetches
succeed, downloadAllPages returns the fetched pages rotated left by one
position — fetch order [0, 1, ..., N-1] becomes [1, ..., N-1, 0] — and an
issue with PageCount = 0 yields the empty list. -/
theorem c1_download_all_pages_rotates (ctx : Ctx)
    (net : String → Except String HttpResponse) (issue : Issue)
    (u : Nat → String) (b : Nat → Bytes)
    (h : ∀ i, i < issue.PageCount →
        issue.GetURL i = Except.ok (u i) ∧
        downloadPage ctx net (u i) = Except.ok (b i)) :
    (downloadAllPages ctx net issue).1 =
      Except.ok (rotateLeftOne ((List.range issue.PageCount).map b)) := by
  have hl := downloadLoop_ok ctx net issue u b issue.PageCount 0 [] []
    (fun j h1 h2 => h j (by omega))
  simp only [downloadAllPages, hl]
  simp [rotateLeftOne_eq_dropTake, List.range_eq_range']

/-- A context that is not cancelled, used by the concrete test inputs. -/
def cCtx : Ctx := { cancelled := false }

def cU : Nat → String := fun i => toString i

def cB : Nat → Bytes := fun i => if i = 0 then [10] else [20]

/-- A two-page issue whose page URLs are just the page indices. -/
def cIssue2 : Issue :=
  { PageCount := 2, Password := "pw", GetURL := fun i => Except.ok (toString i) }

/-- A network in which every URL resolves with status 200 and a readable
body: [10] for URL "0" and [20] otherwise. -/
def cNetC1 : String → Except String HttpResponse := fun url =>
  Except.ok { statusCode := 200,
              body := Except.ok (if url = "0" then [10] else [20]) }

theorem c1_download_all_pages_rotates_witness :
    (∀ i, i < cIssue2.PageCount →
        cIssue2.GetURL i = Except.ok (cU i) ∧
        downloadPage cCtx cNetC1 (cU i) = Except.ok (cB i))
    ∧ (downloadAllPages cCtx cNetC1 cIssue2).1 =
        Except.ok (rotateLeftOne ((List.range cIssue2.PageCount).map cB))
    ∧ (downloadAllPages cCtx cNetC1 cIssue2).1 = Except.ok [[20], [10]] :=
  ⟨by decide,
   c1_download_all_pages_rotates cCtx cNetC1 cIssue2 cU cB (by decide),
   by decide⟩

/-- C5 (amended): downloadPage fails exactly when the context is cancelled
or past its deadline, the network request fails, or reading the response
body fails; otherwise it returns the full response byte content.  The
HTTP status code is never inspected, so a non-success status with a
readable body still succeeds. -/
theorem c5_download_page_error_conditions (ctx : Ctx)
    (net : String → Except String HttpResponse) (url : String) :
    (ctx.cancelled = true →
        downloadPage ctx net url = Except.error "context canceled")
    ∧ (∀ e, ctx.cancelled = false → net url = Except.error e →
        downloadPage ctx net url = Except.error e)
    ∧ (∀ resp e, ctx.cancelled = false → net url = Except.ok resp →
        resp.body = Except.error e →
        downloadPage ctx net url = Except.error e)
    ∧ (∀ resp b, ctx.cancelled = false → net url = Except.ok resp →
        resp.body = Except.ok b →
        downloadPage ctx net url = Except.ok b) := by
  refine ⟨?_, ?_, ?_, ?_⟩ <;> intros <;> simp_all [downloadPage, ctxhttpGet]

/-- A network on which every URL yields status 404 with readable body [7]. -/
def cNet404 : String → Except String HttpResponse := fun _ =>
  Except.ok { statusCode := 404, body := Except.ok [7] }

/-- C5 counterexample: the response for "u" has non-success status 404 and
a readable body, yet downloadPage succeeds with the body content instead
of returning an error as the claim requires. -/
theorem c5_counterexample_status_ignored :
    (∃ resp, cNet404 "u" = Except.ok resp ∧ resp.statusCode = 404)
    ∧ downloadPage cCtx cNet404 "u" = Except.ok [7] :=
  ⟨⟨{ statusCode := 404, body := Except.ok [7] }, rfl, rfl⟩, by decide⟩

theorem c5_download_page_error_conditions_witness :
    cCtx.cancelled = false
    ∧ cNetC1 "0" = Except.ok { statusCode := 200, body := Except.ok [10] }
    ∧ downloadPage cCtx cNetC1 "0" = Except.ok [10] :=
  ⟨rfl, by decide,
   (c5_download_page_error_conditions cCtx cNetC1 "0").2.2.2
     { statusCode := 200, body := Except.ok [10] } [10] rfl (by decide) rfl⟩

/-- C2: when the final destination path does not exist beforehand, a call
to save either leaves the final path absent (in particular whenever the
pdf write or the file close fails, persistence stops before the rename
and the final path does not come to exist), or — only when the write, the
close and the rename all took effect — the final path holds the complete
merged document; it never holds a partially written one. -/
theorem c2_save_is_atomic (parse : Bytes → Except String PdfDoc)
    (addPage : SubPage → Except String Unit) (env : SaveEnv)
    (pages : List Bytes) (password path : String) (fs : FS)
    (h0 : fs.files path = none) :
    ((env.writeErr.isSome ∨ env.closeErr.isSome) →
        ((save parse addPage env pages password path fs).2).files path = none)
    ∧ (∀ d, ((save parse addPage env pages password path fs).2).files path = some d →
        env.writeErr = none ∧ env.closeErr = none ∧
        ∃ doc, unlockAndMerge parse addPage pages password = Except.ok doc ∧
          d = FileData.complete doc) := by
  have hne : ¬(path = path ++ ".part") := path_ne_temp path
  cases hm : unlockAndMerge parse addPage pages password with
  | error e =>
    refine ⟨fun _ => ?_, fun d hd => ?_⟩
    · simpa [save, hm] using h0
    · rw [save] at hd
      simp only [hm] at hd
      simp_all
  | ok doc =>
    cases hc : env.createErr with
    | some e =>
      refine ⟨fun _ => ?_, fun d hd => ?_⟩
      · simpa [save, hm, hc] using h0
      · rw [save] at hd
        simp only [hm, hc] at hd
        simp_all
    | none =>
      cases hw : env.writeErr with
      | some e =>
        refine ⟨fun _ => ?_, fun d hd => ?_⟩
        · simp [save, hm, hc, hw, FS.set, hne, h0]
        · rw [save] at hd
          simp only [hm, hc, hw] at hd
          simp [FS.set, hne, h0] at hd
      | none =>
        cases hcl : env.closeErr with
        | some e =>
          refine ⟨fun _ => ?_, fun d hd => ?_⟩
          · simp [save, hm, hc, hw, hcl, FS.set, hne, h0]
          · rw [save] at hd
            simp only [hm, hc, hw, hcl] at hd
            simp [FS.set, hne, h0] at hd
        | none =>
          refine ⟨fun hcon => ?_, fun d hd => ?_⟩
          · rcases hcon with h1 | h1 <;> simp at h1
          · cases hr : env.renameErr with
            | some e =>
              rw [save] at hd
              simp only [hm, hc, hw, hcl, hr] at hd
              simp [FS.set, hne, h0] at hd
            | none =>
              rw [save] at hd
              simp only [hm, hc, hw, hcl, hr] at hd
              simp [FS.set, FS.remove] at hd
              exact ⟨rfl, rfl, doc, rfl, by simp [hd]⟩

/-- A parse collaborator that is never consulted (used with an empty page
list, for which unlockAndMerge succeeds without parsing anything). -/
def cParseNone : Bytes → Except String PdfDoc := fun _ => Except.error "unreachable"

/-- An AddPage collaborator that always succeeds. -/
def cAddOk : SubPage → Except String Unit := fun _ => Except.ok ()

/-- Fault scenario: the pdf write to the temporary file fails. -/
def cEnvWriteFail : SaveEnv :=
  { createErr := none, writeErr := some "disk full", closeErr := none,
    renameErr := none }

/-- Fault scenario: write succeeds but closing the temporary file fails. -/
def cEnvCloseFail : SaveEnv :=
  { createErr := none, writeErr := none, closeErr := some "close failed",
    renameErr := none }

/-- The fault-free filesystem scenario. -/
def cEnvAllOk : SaveEnv :=
  { createErr := none, writeErr := none, closeErr := none, renameErr := none }

theorem c2_save_is_atomic_witness :
    FS.empty.files "out.pdf" = none
    ∧ (((cEnvWriteFail.writeErr.isSome ∨ cEnvWriteFail.closeErr.isSome) →
        ((save cParseNone cAddOk cEnvWriteFail [] "pw" "out.pdf" FS.empty).2).files
          "out.pdf" = none)
      ∧ (∀ d, ((save cParseNone cAddOk cEnvWriteFail [] "pw" "out.pdf"
            FS.empty).2).files "out.pdf" = some d →
          cEnvWriteFail.writeErr = none ∧ cEnvWriteFail.closeErr = none ∧
          ∃ doc, unlockAndMerge cParseNone cAddOk [] "pw" = Except.ok doc ∧
            d = FileData.complete doc)) :=
  ⟨rfl, c2_save_is_atomic cParseNone cAddOk cEnvWriteFail [] "pw" "out.pdf"
    FS.empty rfl⟩

/-- C10: whenever the merge succeeded and the temporary file was created,
a failing pdf write or a failing close leaves the temporary file at
destination + ".part" on disk while the final destination stays absent
(save never deletes the temporary file on failure), and when write, close
and rename all succeed the temporary path is gone because it was renamed
onto the final path, which then holds the complete document. -/
theorem c10_temp_file_on_failure (parse : Bytes → Except String PdfDoc)
    (addPage : SubPage → Except String Unit) (env : SaveEnv)
    (pages : List Bytes) (password path : String) (fs : FS) (doc : List SubPage)
    (hm : unlockAndMerge parse addPage pages password = Except.ok doc)
    (hc : env.createErr = none) (h0 : fs.files path = none) :
    ((env.writeErr.isSome ∨ env.closeErr.isSome) →
        (∃ d, ((save parse addPage env pages password path fs).2).files
            (path ++ ".part") = some d)
        ∧ ((save parse addPage env pages password path fs).2).files path = none)
    ∧ ((env.writeErr = none ∧ env.closeErr = none ∧ env.renameErr = none) →
        ((save parse addPage env pages password path fs).2).files
            (path ++ ".part") = none
        ∧ ((save parse addPage env pages password path fs).2).files path =
            some (FileData.complete doc)) := by
  have hne : ¬(path = path ++ ".part") := path_ne_temp path
  have hne2 : ¬(path ++ ".part" = path) := fun h => hne h.symm
  constructor
  · intro hcon
    cases hw : env.writeErr with
    | some e =>
      constructor
      · exact ⟨FileData.incomplete, by simp [save, hm, hc, hw, FS.set]⟩
      · simp [save, hm, hc, hw, FS.set, hne, h0]
    | none =>
      cases hcl : env.closeErr with
      | some e =>
        constructor
        · exact ⟨FileData.complete doc, by simp [save, hm, hc, hw, hcl, FS.set]⟩
        · simp [save, hm, hc, hw, hcl, FS.set, hne, h0]
      | none => rcases hcon with h1 | h1 <;> simp [hw, hcl] at h1
  · rintro ⟨hw, hcl, hr⟩
    constructor
    · simp [save, hm, hc, hw, hcl, hr, FS.set, FS.remove, hne2]
    · simp [save, hm, hc, hw, hcl, hr, FS.set, FS.remove]

theorem c10_temp_file_on_failure_witness :
    unlockAndMerge cParseNone cAddOk [] "pw" = Except.ok []
    ∧ cEnvCloseFail.createErr = none
    ∧ FS.empty.files "out.pdf" = none
    ∧ (((cEnvCloseFail.writeErr.isSome ∨ cEnvCloseFail.closeErr.isSome) →
        (∃ d, ((save cParseNone cAddOk cEnvCloseFail [] "pw" "out.pdf"
            FS.empty).2).files ("out.pdf" ++ ".part") = some d)
        ∧ ((save cParseNone cAddOk cEnvCloseFail [] "pw" "out.pdf"
            FS.empty).2).files "out.pdf" = none)
      ∧ ((cEnvCloseFail.writeErr = none ∧ cEnvCloseFail.closeErr = none ∧
            cEnvCloseFail.renameErr = none) →
        ((save cParseNone cAddOk cEnvCloseFail [] "pw" "out.pdf"
            FS.empty).2).files ("out.pdf" ++ ".part") = none
        ∧ ((save cParseNone cAddOk cEnvCloseFail [] "pw" "out.pdf"
            FS.empty).2).files "out.pdf" = some (FileData.complete []))) :=
  ⟨rfl, rfl, rfl,
   c10_temp_file_on_failure cParseNone cAddOk cEnvCloseFail [] "pw" "out.pdf"
     FS.empty [] rfl rfl rfl⟩

/-- C3: evaluating save in the run where merge, create and write succeed
but closing the temporary file fails.  The source hits the error branch
(err != nil || cerr != nil) with err = nil, and errors.Wrapf(nil, ...)
returns nil, so save returns a nil error even though the document was
never renamed to the destination: the close failure is silently
swallowed (src/main.go lines 159-164). -/
theorem c3_close_failure_returns_nil_error :
    cEnvCloseFail.closeErr.isSome = true
    ∧ (save cParseNone cAddOk cEnvCloseFail [] "pw" "out.pdf" FS.empty).1 = none
    ∧ ((save cParseNone cAddOk cEnvCloseFail [] "pw" "out.pdf" FS.empty).2).files
        "out.pdf" = none
    ∧ ((save cParseNone cAddOk cEnvCloseFail [] "pw" "out.pdf" FS.empty).2).files
        "out.pdf.part" = some (FileData.complete []) := by
  refine ⟨rfl, rfl, ?_, ?_⟩ <;> decide

/-- A page container model that rejects every password: Decrypt reports no
transport error but returns ok = false for any password. -/
def cRejectDoc : PdfDoc :=
  { decrypt := fun _ => Except.ok false, numPages := Except.ok 0,
    getPage := fun _ => Except.error "no page" }

def cParseReject : Bytes → Except String PdfDoc := fun _ => Except.ok cRejectDoc

/-- C4: the code formats the plaintext password into the
decryption-failure message (src/main.go line 186), so two distinct
passwords rejected by the same page container produce two different
externally visible messages, each containing the password itself. -/
theorem c4_password_leaks_into_error :
    unlockAndMerge cParseReject cAddOk [[0]] "hunter2" =
      Except.error ("failed to decrypt pages using password " ++ "hunter2")
    ∧ unlockAndMerge cParseReject cAddOk [[0]] "swordfish" =
      Except.error ("failed to decrypt pages using password " ++ "swordfish")
    ∧ unlockAndMerge cParseReject cAddOk [[0]] "hunter2" ≠
      unlockAndMerge cParseReject cAddOk [[0]] "swordfish" := by
  refine ⟨rfl, rfl, ?_⟩
  decide

/-- A network on which every request fails at the transport level. -/
def cNetFail : String → Except String HttpResponse := fun _ =>
  Except.error "refused"

/-- An orchestrator environment whose metadata service returns cIssue2 for
every magazine/issue pair, with an identity sanitizer and fault-free
filesystem collaborators. -/
def cEnvIssue : Env :=
  { sanitize := fun s => s, dirExists := fun _ => true,
    mkdirErr := fun _ => none, getIssue := fun _ _ => Except.ok cIssue2,
    parse := cParseNone, addPage := cAddOk, saveEnv := fun _ => cEnvAllOk }

def cMd : IssueMetadata := { ID := "iid", Title := "Issue One" }

/-- C6 (amended): at most Issue.PageCount page fetches are attempted per
issue — exactly Issue.PageCount when downloadAllPages succeeds — and when
the page-URL derivation or a page fetch fails, downloadAllPages returns
an error, processIssue returns that error wrapped with the magazine and
issue titles, leaves the filesystem unchanged, and its trace contains no
call to save, so no document is persisted for that issue. -/
theorem c6_fetch_budget_and_abort :
    (∀ (ctx : Ctx) (net : String → Except String HttpResponse) (issue : Issue),
        (downloadAllPages ctx net issue).2.length ≤ issue.PageCount)
    ∧ (∀ (ctx : Ctx) (net : String → Except String HttpResponse) (issue : Issue)
        (pages : List Bytes),
        (downloadAllPages ctx net issue).1 = Except.ok pages →
        (downloadAllPages ctx net issue).2 = List.range issue.PageCount)
    ∧ (∀ (env : Env) (ctx : Ctx) (net : String → Except String HttpResponse)
        (magID magTitle : String) (md : IssueMetadata) (path : String) (fs : FS)
        (issue : Issue) (e : String),
        env.getIssue magID md.ID = Except.ok issue →
        (downloadAllPages ctx net issue).1 = Except.error e →
        processIssue env ctx net magID magTitle md path fs =
          (some ("failed to download " ++ magTitle ++ " " ++ md.Title ++ ": " ++ e),
           fs,
           Event.metaFetch magID md.ID ::
             (downloadAllPages ctx net issue).2.map Event.pageFetch)
        ∧ ∀ p, Event.saveCall p ∉
            (processIssue env ctx net magID magTitle md path fs).2.2) := by
  refine ⟨?_, ?_, ?_⟩
  · intro ctx net issue
    obtain ⟨k, hk, hsnd, _⟩ := downloadAllPages_atts ctx net issue
    rw [hsnd]
    simpa using hk
  · intro ctx net issue pages hp
    obtain ⟨k, hk, hsnd, hok⟩ := downloadAllPages_atts ctx net issue
    rw [hsnd, hok pages hp, List.range_eq_range']
  · intro env ctx net magID magTitle md path fs issue e hgi herr
    have hpe : processIssue env ctx net magID magTitle md path fs =
        (some ("failed to download " ++ magTitle ++ " " ++ md.Title ++ ": " ++ e),
         fs,
         Event.metaFetch magID md.ID ::
           (downloadAllPages ctx net issue).2.map Event.pageFetch) := by
      simp [processIssue, hgi, herr]
    refine ⟨hpe, fun p => ?_⟩
    rw [hpe]
    simp

/-- C6 counterexample: with PageCount = 2 and every page fetch failing,
exactly one page fetch is attempted before the issue is aborted, so the
number of attempted page fetches differs from Issue.PageCount. -/
theorem c6_counterexample_attempt_count :
    (downloadAllPages cCtx cNetFail cIssue2).2 = [0]
    ∧ cIssue2.PageCount = 2
    ∧ (downloadAllPages cCtx cNetFail cIssue2).2.length ≠ cIssue2.PageCount :=
  ⟨by decide, rfl, by decide⟩

theorem c6_fetch_budget_and_abort_witness :
    (downloadAllPages cCtx cNetC1 cIssue2).1 = Except.ok [[20], [10]]
    ∧ (downloadAllPages cCtx cNetC1 cIssue2).2 = List.range cIssue2.PageCount
    ∧ cEnvIssue.getIssue "mid" cMd.ID = Except.ok cIssue2
    ∧ (downloadAllPages cCtx cNetFail cIssue2).1 =
        Except.error "failed to download page 0: refused"
    ∧ processIssue cEnvIssue cCtx cNetFail "mid" "Mag" cMd "p" FS.empty =
        (some ("failed to download " ++ "Mag" ++ " " ++ cMd.Title ++ ": " ++
           "failed to download page 0: refused"),
         FS.empty,
         Event.metaFetch "mid" cMd.ID ::
           (downloadAllPages cCtx cNetFail cIssue2).2.map Event.pageFetch) :=
  ⟨by decide,
   c6_fetch_budget_and_abort.2.1 cCtx cNetC1 cIssue2 [[20], [10]] (by decide),
   rfl,
   by decide,
   (c6_fetch_budget_and_abort.2.2 cEnvIssue cCtx cNetFail "mid" "Mag" cMd "p"
      FS.empty cIssue2 "failed to download page 0: refused"
      rfl (by decide)).1⟩

/-- C7: when the destination file for an issue already exists, the issue
loop reports the issue as skipped and nothing else: no metadata fetch, no
page fetch, no decrypt or merge, no save, and the filesystem — hence the
existing file — is left unchanged. -/
theorem c7_existing_file_skips (env : Env) (ctx : Ctx)
    (net : String → Except String HttpResponse) (dir magID magTitle : String)
    (md : IssueMetadata) (fs : FS)
    (h : (fs.files (dir ++ "/" ++ env.sanitize md.Title ++ ".pdf")).isSome = true) :
    runIssue env ctx net dir magID magTitle md fs =
      (fs, [Event.skipIssue magTitle md.Title]) := by
  simp [runIssue, h]

def cFsExisting : FS := FS.empty.set "dir/Issue One.pdf" (FileData.complete [])

theorem c7_existing_file_skips_witness :
    (cFsExisting.files
        ("dir" ++ "/" ++ cEnvIssue.sanitize cMd.Title ++ ".pdf")).isSome = true
    ∧ runIssue cEnvIssue cCtx cNetC1 "dir" "mid" "Mag" cMd cFsExisting =
        (cFsExisting, [Event.skipIssue "Mag" cMd.Title]) :=
  ⟨by decide,
   c7_existing_file_skips cEnvIssue cCtx cNetC1 "dir" "mid" "Mag" cMd
     cFsExisting (by decide)⟩

theorem mergeSubPages_ok (r : PdfDoc) (addPage : SubPage → Except String Unit)
    (sp : Nat → SubPage) :
    ∀ (n i : Nat) (w : List SubPage),
    (∀ k, i + 1 ≤ k → k ≤ i + n → r.getPage k = Except.ok (sp k)) →
    (∀ k, i + 1 ≤ k → k ≤ i + n →
        addPage { sp k with Annots := none } = Except.ok ()) →
    mergeSubPages r addPage i n w =
      Except.ok (w ++ (List.range' (i + 1) n).map
        (fun k => { sp k with Annots := none })) := by
  intro n
  induction n with
  | zero => intro i w hg ha; simp [mergeSubPages]
  | succ n ih =>
    intro i w hg ha
    have hgi := hg (i + 1) (by omega) (by omega)
    have hai := ha (i + 1) (by omega) (by omega)
    have hrec := ih (i + 1) (w ++ [{ sp (i + 1) with Annots := none }])
      (fun k h1 h2 => hg k (by omega) (by omega))
      (fun k h1 h2 => ha k (by omega) (by omega))
    simp only [mergeSubPages, hgi, hai, hrec, List.range'_succ]
    simp [List.append_assoc]

theorem unlockLoop_ok (parse : Bytes → Except String PdfDoc)
    (addPage : SubPage → Except String Unit) (password : String)
    (docOf : Bytes → PdfDoc) (np : Bytes → Nat) (sp : Bytes → Nat → SubPage) :
    ∀ (pages : List Bytes) (w : List SubPage),
    (∀ p ∈ pages, parse p = Except.ok (docOf p)) →
    (∀ p ∈ pages, (docOf p).decrypt password = Except.ok true) →
    (∀ p ∈ pages, (docOf p).numPages = Except.ok (np p)) →
    (∀ p ∈ pages, ∀ k, 1 ≤ k → k ≤ np p →
        (docOf p).getPage k = Except.ok (sp p k)) →
    (∀ p ∈ pages, ∀ k, 1 ≤ k → k ≤ np p →
        addPage { sp p k with Annots := none } = Except.ok ()) →
    unlockLoop parse addPage password pages w =
      Except.ok (w ++ (pages.map (fun p => (List.range' 1 (np p)).map
        (fun k => { sp p k with Annots := none }))).flatten) := by
  intro pages
  induction pages with
  | nil => intro w _ _ _ _ _; simp [unlockLoop]
  | cons p ps ih =>
    intro w hparse hdec hnum hget hadd
    have hmerge := mergeSubPages_ok (docOf p) addPage (sp p) (np p) 0 w
      (fun k h1 h2 => hget p (by simp) k (by omega) (by omega))
      (fun k h1 h2 => hadd p (by simp) k (by omega) (by omega))
    have hrec := ih
      (w ++ (List.range' 1 (np p)).map (fun k => { sp p k with Annots := none }))
      (fun q hq => hparse q (by simp [hq]))
      (fun q hq => hdec q (by simp [hq]))
      (fun q hq => hnum q (by simp [hq]))
      (fun q hq => hget q (by simp [hq]))
      (fun q hq => hadd q (by simp [hq]))
    simp only [unlockLoop, hparse p (by simp), hdec p (by simp),
      hnum p (by simp), if_true, hmerge, hrec]
    simp [List.append_assoc]

/-- C8: when every container parses, accepts the password, reports its
page count and yields each of its 1-based sub-pages, and every AddPage
succeeds, unlockAndMerge produces exactly the concatenation, in input
order, of each container's sub-pages in ascending internal order, each
with its annotation data cleared — no reordering happens at the merge. -/
theorem c8_merge_preserves_order (parse : Bytes → Except String PdfDoc)
    (addPage : SubPage → Except String Unit) (password : String)
    (pages : List Bytes) (docOf : Bytes → PdfDoc) (np : Bytes → Nat)
    (sp : Bytes → Nat → SubPage)
    (hparse : ∀ p ∈ pages, parse p = Except.ok (docOf p))
    (hdec : ∀ p ∈ pages, (docOf p).decrypt password = Except.ok true)
    (hnum : ∀ p ∈ pages, (docOf p).numPages = Except.ok (np p))
    (hget : ∀ p ∈ pages, ∀ k, 1 ≤ k → k ≤ np p →
        (docOf p).getPage k = Except.ok (sp p k))
    (hadd : ∀ p ∈ pages, ∀ k, 1 ≤ k → k ≤ np p →
        addPage { sp p k with Annots := none } = Except.ok ()) :
    unlockAndMerge parse addPage pages password =
      Except.ok ((pages.map (fun p => (List.range' 1 (np p)).map
        (fun k => { sp p k with Annots := none }))).flatten) := by
  have h := unlockLoop_ok parse addPage password docOf np sp pages []
    hparse hdec hnum hget hadd
  simpa [unlockAndMerge] using h

def cSp : Nat → SubPage := fun k => { content := k, Annots := some k }

/-- A container model accepting every password and holding two sub-pages,
cSp 1 and cSp 2, each carrying annotation data. -/
def cDoc2 : PdfDoc :=
  { decrypt := fun _ => Except.ok true, numPages := Except.ok 2,
    getPage := fun k => if k = 0 then Except.error "bad index"
               else Except.ok (cSp k) }

def cParse2 : Bytes → Except String PdfDoc := fun _ => Except.ok cDoc2

def cDocOf : Bytes → PdfDoc := fun _ => cDoc2

def cNp : Bytes → Nat := fun _ => 2

def cSpOf : Bytes → Nat → SubPage := fun _ k => cSp k

theorem c8_merge_preserves_order_witness :
    (∀ p ∈ [[1], [2]], cParse2 p = Except.ok (cDocOf p))
    ∧ (∀ p ∈ [[1], [2]], (cDocOf p).decrypt "pw" = Except.ok true)
    ∧ (∀ p ∈ [[1], [2]], (cDocOf p).numPages = Except.ok (cNp p))
    ∧ (∀ p ∈ [[1], [2]], ∀ k, 1 ≤ k → k ≤ cNp p →
        (cDocOf p).getPage k = Except.ok (cSpOf p k))
    ∧ (∀ p ∈ [[1], [2]], ∀ k, 1 ≤ k → k ≤ cNp p →
        cAddOk { cSpOf p k with Annots := none } = Except.ok ())
    ∧ unlockAndMerge cParse2 cAddOk [[1], [2]] "pw" =
        Except.ok (([[1], [2]].map (fun p => (List.range' 1 (cNp p)).map
          (fun k => { cSpOf p k with Annots := none }))).flatten)
    ∧ unlockAndMerge cParse2 cAddOk [[1], [2]] "pw" =
        Except.ok [{ content := 1, Annots := none },
                   { content := 2, Annots := none },
                   { content := 1, Annots := none },
                   { content := 2, Annots := none }] := by
  refine ⟨fun p _ => rfl, fun p _ => rfl, fun p _ => rfl, ?_, fun p _ k _ _ => rfl,
    ?_, by decide⟩
  · intro p hp k h1 h2
    simp [cNp] at h2
    interval_cases k <;> rfl
  · exact c8_merge_preserves_order cParse2 cAddOk "pw" [[1], [2]] cDocOf cNp cSpOf
      (fun p _ => rfl) (fun p _ => rfl) (fun p _ => rfl)
      (fun p hp k h1 h2 => by
        simp [cNp] at h2
        interval_cases k <;> rfl)
      (fun p _ k _ _ => rfl)

theorem processIssue_trace_ne_nil (env : Env) (ctx : Ctx)
    (net : String → Except String HttpResponse) (magID magTitle : String)
    (md : IssueMetadata) (path : String) (fs : FS) :
    (processIssue env ctx net magID magTitle md path fs).2.2 ≠ [] := by
  cases hgi : env.getIssue magID md.ID with
  | error e => simp [processIssue, hgi]
  | ok issue =>
    cases hr : (downloadAllPages ctx net issue).1 with
    | error e => simp [processIssue, hgi, hr]
    | ok pages => simp [processIssue, hgi, hr]

theorem runIssue_trace_len (env : Env) (ctx : Ctx)
    (net : String → Except String HttpResponse) (dir magID magTitle : String)
    (md : IssueMetadata) (fs : FS) :
    1 ≤ (runIssue env ctx net dir magID magTitle md fs).2.length := by
  cases h : (fs.files (dir ++ "/" ++ env.sanitize md.Title ++ ".pdf")).isSome with
  | true => simp [runIssue, h]
  | false =>
    rcases hp : processIssue env ctx net magID magTitle md
        (dir ++ "/" ++ env.sanitize md.Title ++ ".pdf") fs with ⟨fst, fs1, evs⟩
    have hne : evs ≠ [] := by
      have h2 := processIssue_trace_ne_nil env ctx net magID magTitle md
        (dir ++ "/" ++ env.sanitize md.Title ++ ".pdf") fs
      rw [hp] at h2
      simpa using h2
    cases fst with
    | some e => simp [runIssue, h, hp]
    | none =>
      simp [runIssue, h, hp]
      exact List.length_pos.mpr hne

theorem runIssues_trace_len (env : Env) (ctx : Ctx)
    (net : String → Except String HttpResponse) (dir magID magTitle : String) :
    ∀ (mds : List IssueMetadata) (fs : FS),
    mds.length ≤ (runIssues env ctx net dir magID magTitle fs mds).2.length := by
  intro mds
  induction mds with
  | nil => intro fs; simp [runIssues]
  | cons md rest ih =>
    intro fs
    have h1 := runIssue_trace_len env ctx net dir magID magTitle md fs
    have h2 := ih (runIssue env ctx net dir magID magTitle md fs).1
    simp only [runIssues, List.length_append, List.length_cons]
    omega

/-- C9 (amended): the orchestrator performs no internal retry — within one
issue the attempted page fetches are exactly the indices 0..k-1 in order,
each attempted once; the first page-fetch failure of an issue comes back
to the batch loop wrapped with the page index and the magazine and issue
titles (a metadata-fetch failure, by contrast, is returned unwrapped);
and one issue's failure never halts the batch — every issue in the list
still contributes its own processing trace. -/
theorem c9_no_retry_and_isolation :
    (∀ (ctx : Ctx) (net : String → Except String HttpResponse) (issue : Issue),
        ∃ k, k ≤ issue.PageCount ∧
          (downloadAllPages ctx net issue).2 = List.range' 0 k)
    ∧ (∀ (env : Env) (ctx : Ctx) (net : String → Except String HttpResponse)
        (magID magTitle : String) (md : IssueMetadata) (path : String) (fs : FS)
        (issue : Issue) (u : Nat → String) (b : Nat → Bytes) (e0 : String)
        (m : Nat),
        env.getIssue magID md.ID = Except.ok issue →
        m < issue.PageCount →
        (∀ j, j < m → issue.GetURL j = Except.ok (u j) ∧
            downloadPage ctx net (u j) = Except.ok (b j)) →
        issue.GetURL m = Except.ok (u m) →
        downloadPage ctx net (u m) = Except.error e0 →
        (processIssue env ctx net magID magTitle md path fs).1 =
          some ("failed to download " ++ magTitle ++ " " ++ md.Title ++ ": " ++
            ("failed to download page " ++ toString m ++ ": " ++ e0)))
    ∧ (∀ (env : Env) (ctx : Ctx) (net : String → Except String HttpResponse)
        (dir magID magTitle : String) (mds : List IssueMetadata) (fs : FS),
        mds.length ≤ (runIssues env ctx net dir magID magTitle fs mds).2.length) := by
  refine ⟨?_, ?_, ?_⟩
  · intro ctx net issue
    obtain ⟨k, hk, hsnd, _⟩ := downloadAllPages_atts ctx net issue
    exact ⟨k, hk, hsnd⟩
  · intro env ctx net magID magTitle md path fs issue u b e0 m hgi hm hpre hgu hf
    have hloop := downloadLoop_err ctx net issue u b e0 m issue.PageCount 0 [] []
      hm (fun j h1 h2 => hpre j (by omega)) (by simpa using hgu)
      (by simpa using hf)
    have herr := downloadAllPages_err ctx net issue
      ("failed to download page " ++ toString (0 + m) ++ ": " ++ e0)
      (by rw [hloop])
    simp [processIssue, hgi, herr]
  · intro env ctx net dir magID magTitle mds fs
    exact runIssues_trace_len env ctx net dir magID magTitle mds fs

/-- An orchestrator environment whose metadata service always fails with
the bare error "boom". -/
def cEnvMetaErr : Env :=
  { sanitize := fun s => s, dirExists := fun _ => true,
    mkdirErr := fun _ => none, getIssue := fun _ _ => Except.error "boom",
    parse := cParseNone, addPage := cAddOk, saveEnv := fun _ => cEnvAllOk }

/-- C9 counterexample: when the metadata fetch of an issue fails, the
error returned to the batch loop is the collaborator's error unchanged —
two runs with entirely different magazine and issue identities return
the identical message "boom", so the first failure of such an issue is
not wrapped with the issue identity. -/
theorem c9_counterexample_unwrapped_meta_error :
    (processIssue cEnvMetaErr cCtx cNetC1 "m1" "Magazine One"
        { ID := "i1", Title := "Issue A" } "p1" FS.empty).1 = some "boom"
    ∧ (processIssue cEnvMetaErr cCtx cNetC1 "m2" "Magazine Two"
        { ID := "i2", Title := "Issue B" } "p2" FS.empty).1 = some "boom" :=
  ⟨rfl, rfl⟩

def cMd2 : IssueMetadata := { ID := "iid2", Title := "Issue Two" }

theorem c9_no_retry_and_isolation_witness :
    cEnvIssue.getIssue "mid" cMd.ID = Except.ok cIssue2
    ∧ 0 < cIssue2.PageCount
    ∧ cIssue2.GetURL 0 = Except.ok (cU 0)
    ∧ downloadPage cCtx cNetFail (cU 0) = Except.error "refused"
    ∧ (processIssue cEnvIssue cCtx cNetFail "mid" "Mag" cMd "p" FS.empty).1 =
        some ("failed to download " ++ "Mag" ++ " " ++ cMd.Title ++ ": " ++
          ("failed to download page " ++ toString 0 ++ ": " ++ "refused"))
    ∧ [cMd, cMd2].length ≤
        (runIssues cEnvIssue cCtx cNetFail "dir" "mid" "Mag" FS.empty
          [cMd, cMd2]).2.length :=
  ⟨rfl, by decide, rfl, by decide,
   c9_no_retry_and_isolation.2.1 cEnvIssue cCtx cNetFail "mid" "Mag" cMd "p"
     FS.empty cIssue2 cU cB "refused" 0 rfl (by decide)
     (fun j hj => absurd hj (by omega)) rfl (by decide),
   c9_no_retry_and_isolation.2.2 cEnvIssue cCtx cNetFail "dir" "mid" "Mag"
     [cMd, cMd2] FS.empty⟩
